import Mathlib

/-! libdynudns: a verification development of `provider.go`

A shallow embedding of the Dynu DNS provider adapter (package `dnyndns`) and
theorems about its index builder, request-body builder and the four facade
operations.

Conventions of the embedding

* Go `string` is `String` in the facade, the index and the URLs (these strings are taken to
  be valid UTF-8, so that a suffix of bytes "." is a suffix of characters); the arguments of
  `getRecordReqBody` are raw Go strings `GoString`, sequences of bytes that need not be valid
  UTF-8, because `json.Marshal` treats invalid bytes specially.
* Go `int` (taken as 64 bits wide, as on amd64 and arm64) and `time.Duration` are `Int`,
  64-bit two's-complement arithmetic being made explicit with `wrapInt64`.
* A Go `map[string]V` is a key-unique association list `GoMap V`.
* A Go `error` is an `Option String` (`none` is `nil`); a function returning
  `(value, error)` with exactly one of them meaningful is an `Except String _`.
* The network is an oracle `Remote`; every invocation of `callDnsApi` is
  appended to an explicit trace of `Request`s that is threaded through.
-/

namespace Dynudns

/-! ## Standard-library helpers used by the source -/

/-- Go `strings.TrimSuffix s suffix`: `s` without the trailing `suffix` when `s`
ends in it, `s` unchanged otherwise. -/
def trimSuffix (s suffix : String) : String :=
  if suffix.data.isSuffixOf s.data then
    String.mk (s.data.take (s.data.length - suffix.data.length))
  else s

/-- Reduction of an integer to the signed 64-bit range, as Go integer arithmetic does. -/
def wrapInt64 (x : Int) : Int :=
  (x + 9223372036854775808) % 18446744073709551616 - 9223372036854775808

/-- Go `time.Second`, in nanoseconds. -/
def Second : Int := 1000000000

/-! ## Raw Go strings and UTF-8 -/

/-- A raw Go `string`: a sequence of bytes (numbers below 256), valid UTF-8 or not. -/
structure GoString where
  bytes : List Nat
deriving DecidableEq, Repr

/-- The UTF-8 encoding of the code point `c`. -/
def encodeRune (c : Nat) : List Nat :=
  if c < 128 then [c]
  else if c < 2048 then [192 + c / 64, 128 + c % 64]
  else if c < 65536 then [224 + c / 4096, 128 + c / 64 % 64, 128 + c % 64]
  else [240 + c / 262144, 128 + c / 4096 % 64, 128 + c / 64 % 64, 128 + c % 64]

/-- The UTF-8 encoding of a sequence of characters. -/
def encodeChars : List Char → List Nat
  | [] => []
  | c :: cs => encodeRune c.toNat ++ encodeChars cs

/-- The raw Go string holding the UTF-8 encoding of a `String`; the valid UTF-8 Go strings are
exactly the values of this function. -/
def GoString.ofString (s : String) : GoString :=
  ⟨encodeChars s.data⟩

instance : Coe String GoString := ⟨GoString.ofString⟩

/-- Go `utf8.DecodeRuneInString` on a non-empty input: `some (r, size)` for a well-formed
encoding of `r` on `size` bytes, `none` for the result `(RuneError, 1)` of an invalid or
truncated one. The first byte selects the size and the range accepted for the second byte
(tables `first` and `acceptRanges` of package `unicode/utf8`). -/
def decodeRune : List Nat → Option (Nat × Nat)
  | [] => none
  | s0 :: rest =>
    if s0 < 128 then some (s0, 1)
    else if s0 < 194 ∨ 244 < s0 then none
    else
      match rest with
      | [] => none
      | s1 :: rest1 =>
        if s1 < (if s0 = 224 then 160 else if s0 = 240 then 144 else 128) ∨
            (if s0 = 237 then 159 else if s0 = 244 then 143 else 191) < s1 then none
        else if s0 < 224 then some (s0 % 32 * 64 + s1 % 64, 2)
        else
          match rest1 with
          | [] => none
          | s2 :: rest2 =>
            if s2 < 128 ∨ 191 < s2 then none
            else if s0 < 240 then some (s0 % 16 * 4096 + s1 % 64 * 64 + s2 % 64, 3)
            else
              match rest2 with
              | [] => none
              | s3 :: _ =>
                if s3 < 128 ∨ 191 < s3 then none
                else some (s0 % 8 * 262144 + s1 % 64 * 4096 + s2 % 64 * 64 + s3 % 64, 4)

/-- The scan of Go `encoding/json` over the bytes of a string: a well-formed encoding is
kept, each invalid byte is replaced by U+FFFD. `skip` counts the bytes still to pass over of
an encoding already decoded. -/
def coerceLoop : Nat → List Nat → List Char
  | _, [] => []
  | skip + 1, _ :: rest => coerceLoop skip rest
  | 0, s0 :: rest =>
    match decodeRune (s0 :: rest) with
    | none => Char.ofNat 65533 :: coerceLoop 0 rest
    | some (r, size) => Char.ofNat r :: coerceLoop (size - 1) rest

/-- The string a JSON member written by Go `json.Marshal` for the Go string `s` denotes: `s`
with each invalid UTF-8 byte replaced by U+FFFD. -/
def coerceUTF8 (s : GoString) : String :=
  String.mk (coerceLoop 0 s.bytes)

/-! ## Go maps -/

/-- A Go `map[string]V`, as an association list with pairwise distinct keys. -/
abbrev GoMap (V : Type) := List (String × V)

/-- Go `v, ok := m[k]`. -/
def GoMap.get? {V : Type} (m : GoMap V) (k : String) : Option V :=
  List.lookup k m

/-- Go `m[k] = v`. -/
def GoMap.set {V : Type} (m : GoMap V) (k : String) (v : V) : GoMap V :=
  (k, v) :: m.filter (fun e => e.1 != k)

/-! ## Data model -/

/-- The constant `apiUrl`. -/
def apiUrl : String := "https://api.dynu.com/v2"

/-- The native record `DnsRecord`; field defaults are Go's zero values. -/
structure DnsRecord where
  Id : Int := 0
  DomainId : Int := 0
  DomainName : String := ""
  NodeName : String := ""
  Hostname : String := ""
  RecordType : String := ""
  Ttl : Int := 0
  State : Int := 0
  Content : String := ""
  UpdatedOn : String := ""
  MasterName : String := ""
  ResponsibleName : String := ""
  Refresh : Int := 0
  Retry : Int := 0
  Expire : Int := 0
  NegativeTTL : Int := 0
  Ipv4Address : String := ""
  TextData : String := ""
  Group : String := ""
deriving DecidableEq, Repr

/-- The wrapper `DnsRecordResponse`. -/
structure DnsRecordResponse where
  DnsRecords : List DnsRecord := []
deriving DecidableEq, Repr

/-- The domain descriptor `DomainResponse`. -/
structure DomainResponse where
  Id : Int := 0
  DomainName : String := ""
  Hostname : String := ""
  Node : String := ""
deriving DecidableEq, Repr

/-- Modelled from the spec: the generic record `libdns.Record`, whose declaration
lives in the imported package `github.com/libdns/libdns`; the four fields the
adapter reads and writes, `TTL` being a `time.Duration` in nanoseconds. The
field `Type` is spelled `Typ`, `Type` being reserved. -/
structure Record where
  Typ : String := ""
  Name : String := ""
  Value : String := ""
  TTL : Int := 0
deriving DecidableEq, Repr

/-! ## Domain resolution -/

/-- The function `getDomain`. -/
def getDomain (zone : String) : String :=
  trimSuffix zone "."

/-- The lookup URL built by `getDomainIdFromFQDN` (its local `url`). -/
def getrootUrl (ResolvedFQDN : String) : String :=
  let hostname := getDomain ResolvedFQDN
  apiUrl ++ "/dns/getroot/" ++ hostname

/-! ## Record index -/

/-- One iteration of the loop of `getRecodsMaps`. -/
def indexStep (recordIDs : GoMap (GoMap Int)) (record : DnsRecord) : GoMap (GoMap Int) :=
  match recordIDs.get? record.RecordType with
  | some inner => recordIDs.set record.RecordType (inner.set record.NodeName record.Id)
  | none =>
    let c : GoMap Int := GoMap.set [] record.NodeName record.Id
    recordIDs.set record.RecordType c

/-- The loop of `getRecodsMaps`: the records are visited from the last to the first. -/
def buildIndex (dnsRecords : List DnsRecord) : GoMap (GoMap Int) :=
  dnsRecords.reverse.foldl indexStep []

/-- The two-level lookup `recordIDs[t][n]` with its presence flag. -/
def lookupId (recordIDs : GoMap (GoMap Int)) (t n : String) : Option Int :=
  match recordIDs.get? t with
  | some inner => inner.get? n
  | none => none

/-! ## Durations and request bodies -/

/-- The loop of Go `time.fmtFrac`: peel `prec` decimal digits off `v`, writing them in front
of `buf` once a non-zero digit has been seen. -/
def fmtFracLoop : Nat → Nat → Bool → List Char → List Char × Nat × Bool
  | 0, v, print, buf => (buf, v, print)
  | i + 1, v, print, buf =>
    let digit := v % 10
    let print := print || digit != 0
    let buf := if print then Char.ofNat (digit + 48) :: buf else buf
    fmtFracLoop i (v / 10) print buf

/-- Go `time.fmtFrac`: the fraction of `v / 10^prec` without trailing zeros, and `v / 10^prec`. -/
def fmtFrac (buf : List Char) (v prec : Nat) : List Char × Nat :=
  match fmtFracLoop prec v false buf with
  | (buf, v, print) => (if print then '.' :: buf else buf, v)

/-- Go `time.fmtInt`: the decimal digits of `v` written in front of `buf`. -/
def fmtInt (buf : List Char) (v : Nat) : List Char :=
  (Nat.repr v).data ++ buf

/-- Go `time.Duration.String`, which `fmt.Sprint` calls on a duration of `d` nanoseconds. -/
def durationString (d : Int) : String :=
  let u := d.natAbs
  let buf : List Char :=
    if u < 1000000000 then
      if u = 0 then ['0', 's']
      else if u < 1000 then fmtInt ['n', 's'] u
      else if u < 1000000 then
        match fmtFrac ['µ', 's'] u 3 with
        | (b, v) => fmtInt b v
      else
        match fmtFrac ['m', 's'] u 6 with
        | (b, v) => fmtInt b v
    else
      match fmtFrac ['s'] u 9 with
      | (b, v) =>
        let b := fmtInt b (v % 60)
        let v := v / 60
        if v > 0 then
          let b := fmtInt ('m' :: b) (v % 60)
          let v := v / 60
          if v > 0 then fmtInt ('h' :: b) v else b
        else b
  String.mk (if d < 0 then '-' :: buf else buf)

/-- Go `json.Marshal` applied to a `map[string]string` (here with the literal keys of the
source and raw Go strings as values): it cannot fail on such a map, and the bytes it returns
encode the JSON object with the keys of the map, each value having its invalid UTF-8 bytes
replaced by U+FFFD. That object stands for the bytes here. -/
def jsonMarshal (m : GoMap GoString) : Except String (GoMap String) :=
  .ok (m.map (fun e => (e.1, coerceUTF8 e.2)))

/-- The duration that `getRecordReqBody` formats into the field `ttl`: the Go expression
`ttl * time.Second` on `time.Duration` operands, a 64-bit signed product. -/
def reqTtl (ttl : Int) : Int :=
  wrapInt64 (ttl * Second)

/-- The function `getRecordReqBody`, on raw Go strings. -/
def getRecordReqBody (recordName recordType value : GoString) (ttl : Int) :
    Except String (GoMap String) :=
  let requestbody : GoMap GoString :=
    [("nodeName", recordName),
     ("recordType", recordType),
     ("ttl", GoString.ofString (durationString (reqTtl ttl))),
     ("group", GoString.ofString ""),
     ("state", GoString.ofString "true")]
  let requestbody :=
    if recordType = GoString.ofString "TXT" then requestbody.set "textData" value
    else if recordType = GoString.ofString "A" then requestbody.set "ipv4Address" value
    else requestbody
  jsonMarshal requestbody

/-! ## The remote provider and the call trace -/

/-- One invocation of `callDnsApi`: its URL, method, body (`none` for a `nil` reader) and key. -/
structure Request where
  url : String
  method : String
  body : Option (GoMap String)
  apiKey : String
deriving DecidableEq, Repr

/-- What lies outside the program: the outcome of `callDnsApi` for a request, which may
depend on every request made before it, and the two `json.Unmarshal` decoders. Unmarshalling
the record list returns the (possibly partly filled) target together with the error. -/
structure Remote where
  respond : List Request → Request → Except String String
  unmarshalDomain : String → Except String DomainResponse
  unmarshalRecords : String → DnsRecordResponse × Option String

/-- The function `callDnsApi`: every invocation is recorded in the trace, and its outcome is
the one the remote gives: the response body on HTTP 200, an error in every other case (the
request cannot be built, the transport fails, the body cannot be read, another status). -/
def callDnsApi (rm : Remote) (tr : List Request) (url method : String)
    (body : Option (GoMap String)) (apiKey : String) : Except String String × List Request :=
  let req : Request := ⟨url, method, body, apiKey⟩
  (rm.respond tr req, tr ++ [req])

/-- The function `getDomainIdFromFQDN`. -/
def getDomainIdFromFQDN (rm : Remote) (tr : List Request) (apiKey ResolvedFQDN : String) :
    (String × String × Option String) × List Request :=
  let url := getrootUrl ResolvedFQDN
  match callDnsApi rm tr url "GET" none apiKey with
  | (.error err, tr1) => (("", "", some err), tr1)
  | (.ok response, tr1) =>
    match rm.unmarshalDomain response with
    | .error readErr => (("", "", some readErr), tr1)
    | .ok domainResponse => ((toString domainResponse.Id, domainResponse.Node, none), tr1)

/-- The function `getRecordsForDomain`. -/
def getRecordsForDomain (rm : Remote) (tr : List Request) (apiKey domainId : String) :
    Except String String × List Request :=
  let url := apiUrl ++ "/dns/" ++ domainId ++ "/record"
  callDnsApi rm tr url "GET" none apiKey

/-- The function `getRecordsForDomainByZone`. -/
def getRecordsForDomainByZone (rm : Remote) (tr : List Request) (apiKey zone : String) :
    (DnsRecordResponse × String × Option String) × List Request :=
  let dnsRecordsResponse : DnsRecordResponse := {}
  match getDomainIdFromFQDN rm tr apiKey zone with
  | ((_, _, some err), tr1) => ((dnsRecordsResponse, "", some err), tr1)
  | ((domainId, _, none), tr1) =>
    match getRecordsForDomain rm tr1 apiKey domainId with
    | (.error err, tr2) =>
      ((dnsRecordsResponse, "", some ("unable to get DNS records " ++ err)), tr2)
    | (.ok dnsRecords, tr2) =>
      match rm.unmarshalRecords dnsRecords with
      | (resp, readErr) => ((resp, domainId, readErr), tr2)

/-- The function `getRecodsMaps`. -/
def getRecodsMaps (rm : Remote) (tr : List Request) (apiKey zone : String) :
    (GoMap (GoMap Int) × String × Option String) × List Request :=
  match getRecordsForDomainByZone rm tr apiKey zone with
  | ((dnsRecordsResponse, domainId, err), tr1) =>
    ((buildIndex dnsRecordsResponse.DnsRecords, domainId, err), tr1)

/-- The function `deleteRecord`. -/
def deleteRecord (rm : Remote) (tr : List Request) (apiKey domainId : String) (recordId : Int) :
    Except String String × List Request :=
  let url := apiUrl ++ "/dns/" ++ domainId ++ "/record/" ++ toString recordId
  callDnsApi rm tr url "DELETE" none apiKey

/-- The function `addRecord`; it returns nothing, so only the trace is threaded. -/
def addRecord (rm : Remote) (tr : List Request) (apiKey domainId recordName recordType
    value : String) (ttl : Int) : List Request :=
  match getRecordReqBody (GoString.ofString recordName) (GoString.ofString recordType)
      (GoString.ofString value) ttl with
  | .error _ => tr
  | .ok jsonBody =>
    let url := apiUrl ++ "/dns/" ++ domainId ++ "/record"
    (callDnsApi rm tr url "POST" (some jsonBody) apiKey).2

/-- The function `updteRecord`; it returns nothing, so only the trace is threaded. -/
def updteRecord (rm : Remote) (tr : List Request) (apiKey domainId : String) (recordId : Int)
    (recordName recordType value : String) (ttl : Int) : List Request :=
  match getRecordReqBody (GoString.ofString recordName) (GoString.ofString recordType)
      (GoString.ofString value) ttl with
  | .error _ => tr
  | .ok jsonBody =>
    let url := apiUrl ++ "/dns/" ++ domainId ++ "/record/" ++ toString recordId
    (callDnsApi rm tr url "POST" (some jsonBody) apiKey).2

/-! ## The facade -/

/-- The receiver `Provider`. -/
structure Provider where
  APIToken : String := ""
deriving DecidableEq, Repr

/-- The body of the loop of `GetRecords`: the generic record built from a native one. -/
def toRecord (record : DnsRecord) : Record :=
  let val :=
    if record.RecordType = "TXT" then record.TextData
    else if record.RecordType = "A" then record.Ipv4Address
    else ""
  ⟨record.RecordType, record.NodeName, val, wrapInt64 (record.Ttl * Second)⟩

/-- The method `GetRecords`: the fetched list is walked from its last index down to 0 and
each translation is appended to the result. -/
def GetRecords (rm : Remote) (p : Provider) (tr : List Request) (zone : String) :
    Except String (List Record) × List Request :=
  match getRecordsForDomainByZone rm tr p.APIToken zone with
  | ((_, _, some err), tr1) => (.error ("unable to get DNS records " ++ err), tr1)
  | ((dnsRecordsResponse, _, none), tr1) =>
    (.ok (dnsRecordsResponse.DnsRecords.reverse.map toRecord), tr1)

/-- The loop of `AppendRecords`; `err` is the variable `err` of the enclosing function, which
the loop body tests after each write. -/
def appendLoop (rm : Remote) (apiKey : String) (recordIDs : GoMap (GoMap Int))
    (domainId : String) (err : Option String) :
    List Record → List Record → List Request → Except String (List Record) × List Request
  | [], appendedRecords, tr => (.ok appendedRecords, tr)
  | record :: rest, appendedRecords, tr =>
    let recordId : Int :=
      match recordIDs.get? record.Typ with
      | some inner => (inner.get? record.Name).getD 0
      | none => 0
    let tr1 :=
      if recordId ≠ 0 then
        updteRecord rm tr apiKey domainId recordId record.Name record.Typ record.Value record.TTL
      else
        addRecord rm tr apiKey domainId record.Name record.Typ record.Value record.TTL
    match err with
    | some e => (.error e, tr1)
    | none => appendLoop rm apiKey recordIDs domainId err rest (appendedRecords ++ [record]) tr1

/-- The method `AppendRecords`. -/
def AppendRecords (rm : Remote) (p : Provider) (tr : List Request) (zone : String)
    (records : List Record) : Except String (List Record) × List Request :=
  match getRecodsMaps rm tr p.APIToken zone with
  | ((_, _, some err), tr1) => (.error ("unable to get DNS records " ++ err), tr1)
  | ((recordIDs, domainId, none), tr1) =>
    appendLoop rm p.APIToken recordIDs domainId none records [] tr1

/-- The method `SetRecords`. -/
def SetRecords (rm : Remote) (p : Provider) (tr : List Request) (zone : String)
    (records : List Record) : Except String (List Record) × List Request :=
  AppendRecords rm p tr zone records

/-- The loop of `DeleteRecords`. -/
def deleteLoop (rm : Remote) (apiKey : String) (recordIDs : GoMap (GoMap Int))
    (domainId : String) :
    List Record → List Record → List Request → Except String (List Record) × List Request
  | [], deleteRecords, tr => (.ok deleteRecords, tr)
  | record :: rest, deleteRecords, tr =>
    match recordIDs.get? record.Typ with
    | none => (.error "unable to get DNS records <nil>", tr)
    | some inner =>
      match inner.get? record.Name with
      | none => (.error "unable to get DNS records <nil>", tr)
      | some recordId =>
        match deleteRecord rm tr apiKey domainId recordId with
        | (.error err, tr1) => (.error err, tr1)
        | (.ok _, tr1) =>
          deleteLoop rm apiKey recordIDs domainId rest (deleteRecords ++ [record]) tr1

/-- The method `DeleteRecords`. -/
def DeleteRecords (rm : Remote) (p : Provider) (tr : List Request) (zone : String)
    (records : List Record) : Except String (List Record) × List Request :=
  match getRecodsMaps rm tr p.APIToken zone with
  | ((_, _, some err), tr1) => (.error ("unable to get DNS records " ++ err), tr1)
  | ((recordIDs, domainId, none), tr1) =>
    deleteLoop rm p.APIToken recordIDs domainId records [] tr1

/-! ## The calls named by the specification -/

/-- The create call for a record: a POST of its body to the record collection of the domain. -/
def createCall (apiKey domainId : String) (r : Record) : Request :=
  ⟨apiUrl ++ "/dns/" ++ domainId ++ "/record", "POST",
    (getRecordReqBody (GoString.ofString r.Name) (GoString.ofString r.Typ)
      (GoString.ofString r.Value) r.TTL).toOption, apiKey⟩

/-- The update call for a record, addressed to identifier `k`: a POST of its body to the
endpoint of record `k`. -/
def updateCall (apiKey domainId : String) (k : Int) (r : Record) : Request :=
  ⟨apiUrl ++ "/dns/" ++ domainId ++ "/record/" ++ toString k, "POST",
    (getRecordReqBody (GoString.ofString r.Name) (GoString.ofString r.Typ)
      (GoString.ofString r.Value) r.TTL).toOption, apiKey⟩

/-- The DELETE call addressed to identifier `k`. -/
def deleteCall (apiKey domainId : String) (k : Int) : Request :=
  ⟨apiUrl ++ "/dns/" ++ domainId ++ "/record/" ++ toString k, "DELETE", none, apiKey⟩

/-- The write the specification prescribes for a record against an index: an update addressed
to `k` when the index holds a non-zero `k` for its (Type, Name), a create otherwise. -/
def writeCall (idx : GoMap (GoMap Int)) (apiKey domainId : String) (r : Record) : Request :=
  match lookupId idx r.Typ r.Name with
  | some k => if k ≠ 0 then updateCall apiKey domainId k r else createCall apiKey domainId r
  | none => createCall apiKey domainId r

/-- Whether the index holds an identifier for the (Type, Name) of a record. -/
def present (idx : GoMap (GoMap Int)) (r : Record) : Bool :=
  (lookupId idx r.Typ r.Name).isSome

/-- A remote that answers every call with HTTP 200, resolves every zone to domain 7 and
lists the given native records. -/
def okRemote (existing : List DnsRecord) : Remote :=
  ⟨fun _ _ => .ok "", fun _ => .ok { Id := 7 }, fun _ => ({ DnsRecords := existing }, none)⟩

/-- A remote whose root-domain lookup fails. -/
def downRemote : Remote :=
  ⟨fun _ _ => .error "Error calling API", fun _ => .ok {}, fun _ => ({}, none)⟩

/-- A remote that resolves every zone to domain 7 and lists the given native records, but
answers HTTP 404 to every DELETE other than that of record 5. -/
def pickyRemote (existing : List DnsRecord) : Remote :=
  ⟨fun _ q =>
      if q.method = "DELETE" ∧ q.url ≠ "https://api.dynu.com/v2/dns/7/record/5" then
        .error "Error calling API status:404 Not Found"
      else .ok "",
    fun _ => .ok { Id := 7 }, fun _ => ({ DnsRecords := existing }, none)⟩

/-- A native A record, used in the worked examples. -/
def recA : DnsRecord :=
  { Id := 1, RecordType := "A", NodeName := "www", Ipv4Address := "192.0.2.1", Ttl := 300 }

/-- A native TXT record, used in the worked examples. -/
def recTXT : DnsRecord :=
  { Id := 5, RecordType := "TXT", NodeName := "_acme", TextData := "old", Ttl := 120 }

/-- A native A record whose TTL in seconds exceeds what a duration can hold. -/
def recHugeTtl : DnsRecord :=
  { Id := 3, RecordType := "A", NodeName := "www", Ipv4Address := "192.0.2.1",
    Ttl := 9223372037 }

/-- A native A record without identifier (the zero value, as decoded from a JSON object that
has no `id` member). -/
def recNoId : DnsRecord :=
  { Id := 0, RecordType := "A", NodeName := "www", Ipv4Address := "192.0.2.1", Ttl := 300 }

/-- A generic TXT record with a TTL of 300 seconds. -/
def inTXT : Record :=
  { Typ := "TXT", Name := "_acme", Value := "new", TTL := 300000000000 }

/-- A generic A record with a TTL of 300 seconds. -/
def inA : Record :=
  { Typ := "A", Name := "www", Value := "192.0.2.2", TTL := 300000000000 }

/-- A generic record no native record corresponds to. -/
def inOther : Record :=
  { Typ := "A", Name := "mail", Value := "192.0.2.3", TTL := 300000000000 }

/-! ## Lemmas on maps and the index -/

theorem GoMap.get?_set_self {V : Type} (m : GoMap V) (k : String) (v : V) :
    (m.set k v).get? k = some v := by
  simp [GoMap.get?, GoMap.set, List.lookup]

theorem lookup_filter_ne {V : Type} (m : GoMap V) (k k' : String) (h : k' ≠ k) :
    List.lookup k' (m.filter (fun e => e.1 != k)) = List.lookup k' m := by
  induction m with
  | nil => rfl
  | cons e m ih =>
    obtain ⟨a, b⟩ := e
    by_cases hak : a = k
    · subst hak
      have h1 : (k' == a) = false := by simpa using h
      simp [List.filter, List.lookup, h1, ih]
    · have h2 : (a != k) = true := by simpa using hak
      simp only [List.filter, h2, List.lookup]
      rw [ih]

theorem GoMap.get?_set_ne {V : Type} (m : GoMap V) (k k' : String) (v : V) (h : k' ≠ k) :
    (m.set k v).get? k' = m.get? k' := by
  have h1 : (k' == k) = false := by simpa using h
  simp only [GoMap.get?, GoMap.set, List.lookup, h1]
  exact lookup_filter_ne m k k' h

theorem lookupId_indexStep (idx : GoMap (GoMap Int)) (r : DnsRecord) (t n : String) :
    lookupId (indexStep idx r) t n =
      if r.RecordType = t ∧ r.NodeName = n then some r.Id else lookupId idx t n := by
  unfold indexStep
  by_cases ht : t = r.RecordType
  · subst ht
    by_cases hn : n = r.NodeName
    · subst hn
      cases hg : GoMap.get? idx r.RecordType <;>
        simp only [lookupId, GoMap.get?_set_self, and_self, if_true]
    · have hn' : ¬ r.NodeName = n := fun h => hn h.symm
      cases hg : GoMap.get? idx r.RecordType
      · simp only [lookupId, GoMap.get?_set_self, GoMap.get?_set_ne _ _ _ _ hn, hn', hg,
          and_false, if_false]
        rfl
      · simp only [lookupId, GoMap.get?_set_self, GoMap.get?_set_ne _ _ _ _ hn, hn', hg,
          and_false, if_false]
  · have ht' : ¬ r.RecordType = t := fun h => ht h.symm
    cases hg : GoMap.get? idx r.RecordType <;>
      simp only [lookupId, GoMap.get?_set_ne _ _ _ _ ht, ht', false_and, if_false]

theorem buildIndex_cons (r : DnsRecord) (L : List DnsRecord) :
    buildIndex (r :: L) = indexStep (buildIndex L) r := by
  simp [buildIndex, List.foldl_append]

theorem lookupId_buildIndex (L : List DnsRecord) (t n : String) :
    lookupId (buildIndex L) t n =
      (L.find? (fun r => decide (r.RecordType = t ∧ r.NodeName = n))).map (fun r => r.Id) := by
  induction L with
  | nil => rfl
  | cons r L ih =>
    rw [buildIndex_cons, lookupId_indexStep]
    by_cases h : r.RecordType = t ∧ r.NodeName = n
    · simp [List.find?, h]
    · simp [List.find?, h, ih]


/-! ## Domain resolution -/

theorem trimSuffix_append (z suffix : String) : trimSuffix (z ++ suffix) suffix = z := by
  have h1 : suffix.data.isSuffixOf (z ++ suffix).data = true := by
    simp [String.data_append]
  unfold trimSuffix
  rw [if_pos h1]
  simp [String.data_append]

theorem trimSuffix_of_not_suffix (z suffix : String) (h : ¬ ∃ w : String, z = w ++ suffix) :
    trimSuffix z suffix = z := by
  unfold trimSuffix
  split
  · rename_i hs
    exfalso
    rw [List.isSuffixOf_iff_suffix] at hs
    obtain ⟨t, ht⟩ := hs
    exact h ⟨String.mk t, by apply String.ext; simp [String.data_append, ht]⟩
  · rfl

/-- C10. `getDomain` strips exactly one trailing "." and nothing else: `getDomain (z ++ ".") = z`
for every `z`, and `getDomain z = z` for every `z` that does not end in "."; so for a bare zone
name `z` the lookups of `z ++ "."` and of `z` build the same URL,
"https://api.dynu.com/v2/dns/getroot/" followed by `z`, and issue the same request. -/
theorem getDomain_strips_one_trailing_dot :
    (∀ z : String, getDomain (z ++ ".") = z) ∧
    (∀ z : String, (¬ ∃ w : String, z = w ++ ".") → getDomain z = z) ∧
    (∀ z : String, (¬ ∃ w : String, z = w ++ ".") →
      getrootUrl (z ++ ".") = "https://api.dynu.com/v2/dns/getroot/" ++ z ∧
      getrootUrl z = "https://api.dynu.com/v2/dns/getroot/" ++ z ∧
      ∀ (rm : Remote) (tr : List Request) (apiKey : String),
        getDomainIdFromFQDN rm tr apiKey (z ++ ".") = getDomainIdFromFQDN rm tr apiKey z) := by
  refine ⟨fun z => trimSuffix_append z ".", fun z h => trimSuffix_of_not_suffix z "." h, ?_⟩
  intro z h
  have h1 : getrootUrl (z ++ ".") = "https://api.dynu.com/v2/dns/getroot/" ++ z := by
    simp only [getrootUrl, getDomain, trimSuffix_append]
    rfl
  have h2 : getrootUrl z = "https://api.dynu.com/v2/dns/getroot/" ++ z := by
    simp only [getrootUrl, getDomain, trimSuffix_of_not_suffix z "." h]
    rfl
  refine ⟨h1, h2, ?_⟩
  intro rm tr apiKey
  simp only [getDomainIdFromFQDN, h1, h2]

/-- Witness of C10 at the zone "example.com". -/
theorem getDomain_strips_one_trailing_dot_witness :
    getDomain "example.com" = "example.com" ∧
    getrootUrl ("example.com" ++ ".") = "https://api.dynu.com/v2/dns/getroot/" ++ "example.com" :=
  have hbare : ¬ ∃ w : String, "example.com" = w ++ "." := by
    rintro ⟨w, hw⟩
    have h := congrArg (fun s : String => s.data.getLast?) hw
    simp [String.data_append] at h
  ⟨getDomain_strips_one_trailing_dot.2.1 "example.com" hbare,
   (getDomain_strips_one_trailing_dot.2.2 "example.com" hbare).1⟩

/-! ## The index -/

theorem find?_first {α : Type} (p : α → Bool) :
    ∀ (L : List α) (i : Nat) (r : α), L[i]? = some r → p r = true →
      (∀ j r', j < i → L[j]? = some r' → p r' = false) → L.find? p = some r
  | [], i, r, h, _, _ => by simp at h
  | a :: L, 0, r, h, hp, _ => by
    simp only [List.getElem?_cons_zero, Option.some.injEq] at h
    subst h
    simp [List.find?, hp]
  | a :: L, i + 1, r, h, hp, hlt => by
    have ha : p a = false := hlt 0 a (Nat.succ_pos i) (by simp)
    simp only [List.getElem?_cons_succ] at h
    simp only [List.find?, ha]
    exact find?_first p L i r h hp (fun j r' hj hr' => hlt (j + 1) r' (Nat.succ_lt_succ hj)
      (by simpa using hr'))

/-- C3. For every list `L` of native records and every pair (type, name): the index built by
`getRecodsMaps` is the one its loop builds from the fetched list; if a record of `L` has the
pair, the index maps it to the `Id` of the first (lowest-position) such record; if no record
of `L` has the pair, the pair is absent from the index. On the records
`[(A, "www", id 1), (A, "www", id 2)]` the index maps (A, "www") to 1. -/
theorem getRecodsMaps_index_earliest_wins (L : List DnsRecord) (t n : String) :
    (∀ (rm : Remote) (tr : List Request) (apiKey zone : String),
      (getRecodsMaps rm tr apiKey zone).1.1 =
        buildIndex (getRecordsForDomainByZone rm tr apiKey zone).1.1.DnsRecords) ∧
    (∀ (i : Nat) (r : DnsRecord), L[i]? = some r → r.RecordType = t → r.NodeName = n →
      (∀ (j : Nat) (r' : DnsRecord), j < i → L[j]? = some r' →
        ¬ (r'.RecordType = t ∧ r'.NodeName = n)) →
      lookupId (buildIndex L) t n = some r.Id) ∧
    ((∀ r ∈ L, ¬ (r.RecordType = t ∧ r.NodeName = n)) → lookupId (buildIndex L) t n = none) ∧
    lookupId (buildIndex [{ RecordType := "A", NodeName := "www", Id := 1 },
      { RecordType := "A", NodeName := "www", Id := 2 }]) "A" "www" = some 1 := by
  refine ⟨?_, ?_, ?_, by decide⟩
  · intro rm tr apiKey zone
    simp only [getRecodsMaps]
  · intro i r hi ht hn hlt
    rw [lookupId_buildIndex]
    rw [find?_first _ L i r hi (by simp [ht, hn]) (fun j r' hj hr' => by
      simpa using hlt j r' hj hr')]
    rfl
  · intro h
    rw [lookupId_buildIndex]
    have : L.find? (fun r => decide (r.RecordType = t ∧ r.NodeName = n)) = none := by
      rw [List.find?_eq_none]
      intro r hr
      simpa using h r hr
    rw [this]
    rfl

/-- Witness of C3: with a later duplicate and an unrelated record in front, the first
matching record (position 1) wins, and an unlisted pair is absent. -/
theorem getRecodsMaps_index_earliest_wins_witness :
    lookupId (buildIndex [{ RecordType := "TXT", NodeName := "www", Id := 9 },
      { RecordType := "A", NodeName := "www", Id := 1 },
      { RecordType := "A", NodeName := "www", Id := 2 }]) "A" "www" = some 1 ∧
    lookupId (buildIndex [{ RecordType := "TXT", NodeName := "www", Id := 9 }]) "A" "www"
      = none :=
  ⟨(getRecodsMaps_index_earliest_wins [{ RecordType := "TXT", NodeName := "www", Id := 9 },
      { RecordType := "A", NodeName := "www", Id := 1 },
      { RecordType := "A", NodeName := "www", Id := 2 }] "A" "www").2.1 1
      { RecordType := "A", NodeName := "www", Id := 1 } (by decide) (by decide) (by decide)
      (by
        intro j r' hj hr'
        have hj0 : j = 0 := by omega
        subst hj0
        simp only [List.getElem?_cons_zero, Option.some.injEq] at hr'
        subst hr'
        decide),
   (getRecodsMaps_index_earliest_wins [{ RecordType := "TXT", NodeName := "www", Id := 9 }]
      "A" "www").2.2.1 (by
        intro r hr
        simp only [List.mem_singleton] at hr
        subst hr
        decide)⟩

/-! ## Request bodies -/

theorem lookup_isSome_iff {V : Type} (k : String) :
    ∀ m : GoMap V, (List.lookup k m).isSome = true ↔ k ∈ m.map Prod.fst
  | [] => by simp [List.lookup]
  | (a, b) :: m => by
    by_cases h : k = a
    · subst h
      simp [List.lookup]
    · have h1 : (k == a) = false := by simpa using h
      simp [List.lookup, h1, h, lookup_isSome_iff k m]

theorem decodeRune_two (n : Nat) (h1 : ¬ n < 128) (h2 : n < 2048) (rest : List Nat) :
    decodeRune ((192 + n / 64) :: (128 + n % 64) :: rest) = some (n, 2) := by
  have a1 : ¬ (192 + n / 64 < 128) := by omega
  have a2 : ¬ (192 + n / 64 < 194 ∨ 244 < 192 + n / 64) := by omega
  have a3 : ¬ (192 + n / 64 = 224) := by omega
  have a4 : ¬ (192 + n / 64 = 240) := by omega
  have a5 : ¬ (192 + n / 64 = 237) := by omega
  have a6 : ¬ (192 + n / 64 = 244) := by omega
  have a7 : ¬ (128 + n % 64 < 128 ∨ 191 < 128 + n % 64) := by omega
  have a8 : 192 + n / 64 < 224 := by omega
  have a9 : (192 + n / 64) % 32 * 64 + (128 + n % 64) % 64 = n := by omega
  simp only [decodeRune, if_neg a1, if_neg a2, if_neg a3, if_neg a4, if_neg a5, if_neg a6,
    if_neg a7, if_pos a8, a9]

theorem decodeRune_three (n : Nat) (h2 : ¬ n < 2048) (h3 : n < 65536)
    (hv : n < 55296 ∨ (57343 < n ∧ n < 1114112)) (rest : List Nat) :
    decodeRune ((224 + n / 4096) :: (128 + n / 64 % 64) :: (128 + n % 64) :: rest)
      = some (n, 3) := by
  have a1 : ¬ (224 + n / 4096 < 128) := by omega
  have a2 : ¬ (224 + n / 4096 < 194 ∨ 244 < 224 + n / 4096) := by omega
  have a3 : ¬ (128 + n / 64 % 64 <
        (if 224 + n / 4096 = 224 then 160 else if 224 + n / 4096 = 240 then 144 else 128) ∨
      (if 224 + n / 4096 = 237 then 159 else if 224 + n / 4096 = 244 then 143 else 191) <
        128 + n / 64 % 64) := by
    split_ifs <;> omega
  have a4 : ¬ (224 + n / 4096 < 224) := by omega
  have a5 : ¬ (128 + n % 64 < 128 ∨ 191 < 128 + n % 64) := by omega
  have a6 : 224 + n / 4096 < 240 := by omega
  have a7 : (224 + n / 4096) % 16 * 4096 + (128 + n / 64 % 64) % 64 * 64 + (128 + n % 64) % 64
      = n := by omega
  simp only [decodeRune, if_neg a1, if_neg a2, if_neg a3, if_neg a4, if_neg a5, if_pos a6, a7]

theorem decodeRune_four (n : Nat) (h3 : ¬ n < 65536) (hv : n < 1114112) (rest : List Nat) :
    decodeRune ((240 + n / 262144) :: (128 + n / 4096 % 64) :: (128 + n / 64 % 64) ::
      (128 + n % 64) :: rest) = some (n, 4) := by
  have a1 : ¬ (240 + n / 262144 < 128) := by omega
  have a2 : ¬ (240 + n / 262144 < 194 ∨ 244 < 240 + n / 262144) := by omega
  have a3 : ¬ (128 + n / 4096 % 64 <
        (if 240 + n / 262144 = 224 then 160 else if 240 + n / 262144 = 240 then 144 else 128) ∨
      (if 240 + n / 262144 = 237 then 159 else if 240 + n / 262144 = 244 then 143 else 191) <
        128 + n / 4096 % 64) := by
    split_ifs <;> omega
  have a4 : ¬ (240 + n / 262144 < 224) := by omega
  have a5 : ¬ (128 + n / 64 % 64 < 128 ∨ 191 < 128 + n / 64 % 64) := by omega
  have a6 : ¬ (240 + n / 262144 < 240) := by omega
  have a7 : ¬ (128 + n % 64 < 128 ∨ 191 < 128 + n % 64) := by omega
  have a8 : (240 + n / 262144) % 8 * 262144 + (128 + n / 4096 % 64) % 64 * 4096 +
      (128 + n / 64 % 64) % 64 * 64 + (128 + n % 64) % 64 = n := by omega
  simp only [decodeRune, if_neg a1, if_neg a2, if_neg a3, if_neg a4, if_neg a5, if_neg a6,
    if_neg a7, a8]

theorem coerceLoop_zero_cons (s0 : Nat) (rest : List Nat) :
    coerceLoop 0 (s0 :: rest) =
      match decodeRune (s0 :: rest) with
      | none => Char.ofNat 65533 :: coerceLoop 0 rest
      | some (r, size) => Char.ofNat r :: coerceLoop (size - 1) rest := rfl

theorem coerceLoop_encodeRune (n : Nat) (hv : n < 55296 ∨ (57343 < n ∧ n < 1114112))
    (rest : List Nat) :
    coerceLoop 0 (encodeRune n ++ rest) = Char.ofNat n :: coerceLoop 0 rest := by
  unfold encodeRune
  split_ifs with h1 h2 h3
  · have hd : decodeRune (n :: rest) = some (n, 1) := by simp only [decodeRune, if_pos h1]
    show coerceLoop 0 (n :: rest) = _
    rw [coerceLoop_zero_cons, hd]
  · show coerceLoop 0 ((192 + n / 64) :: (128 + n % 64) :: rest) = _
    rw [coerceLoop_zero_cons, decodeRune_two n h1 h2]
    rfl
  · show coerceLoop 0 ((224 + n / 4096) :: (128 + n / 64 % 64) :: (128 + n % 64) :: rest) = _
    rw [coerceLoop_zero_cons, decodeRune_three n h2 h3 hv]
    rfl
  · show coerceLoop 0 ((240 + n / 262144) :: (128 + n / 4096 % 64) :: (128 + n / 64 % 64) ::
      (128 + n % 64) :: rest) = _
    rw [coerceLoop_zero_cons, decodeRune_four n h3 (by omega)]
    rfl

theorem coerceLoop_encodeChars : ∀ cs : List Char, coerceLoop 0 (encodeChars cs) = cs
  | [] => rfl
  | c :: cs => by
    have hv : c.toNat < 55296 ∨ (57343 < c.toNat ∧ c.toNat < 1114112) := c.valid
    rw [encodeChars, coerceLoop_encodeRune c.toNat hv, Char.ofNat_toNat,
      coerceLoop_encodeChars cs]

theorem coerceUTF8_ofString (s : String) : coerceUTF8 (GoString.ofString s) = s := by
  simp only [coerceUTF8, GoString.ofString, coerceLoop_encodeChars]

theorem GoString.ofString_inj (s t : String) : GoString.ofString s = GoString.ofString t ↔ s = t :=
  ⟨fun h => by rw [← coerceUTF8_ofString s, ← coerceUTF8_ofString t, h], fun h => by rw [h]⟩

/-- C9 (counterexample). For the TXT value with the bytes 63 61 66 E9 (hexadecimal), which
are not valid UTF-8, the body is produced and its `textData` member is "caf" followed by
U+FFFD, whose bytes are not those of the value. -/
theorem getRecordReqBody_fields_counterexample :
    ∃ body : GoMap String,
      getRecordReqBody (GoString.ofString "note") (GoString.ofString "TXT")
        ⟨[99, 97, 102, 233]⟩ 300000000000 = .ok body ∧
      body.get? "textData" = some "caf�" ∧
      GoString.ofString "caf�" ≠ ⟨[99, 97, 102, 233]⟩ :=
  ⟨_, rfl, by decide, by decide⟩

/-- C9 (amended). For every name, type, value (raw Go strings) and TTL, `getRecordReqBody`
succeeds; the object it produces has pairwise distinct keys, exactly `nodeName`, `recordType`,
`ttl`, `group`, `state`, plus `textData` iff the type is "TXT" and `ipv4Address` iff the type
is "A"; `group` is the empty string and `state` the string "true"; `nodeName` is the name,
`recordType` the type and the type-specific field, when present, the value, each with every
invalid UTF-8 byte replaced by U+FFFD, hence the name, type and value themselves whenever
these are valid UTF-8. For any other type there is no value field and no error. -/
theorem getRecordReqBody_fields (recordName recordType value : GoString) (ttl : Int) :
    (∃ body : GoMap String,
      getRecordReqBody recordName recordType value ttl = .ok body ∧
      (body.map Prod.fst).Nodup ∧
      (∀ k : String, (body.get? k).isSome = true ↔
        (k = "nodeName" ∨ k = "recordType" ∨ k = "ttl" ∨ k = "group" ∨ k = "state" ∨
          (k = "textData" ∧ recordType = GoString.ofString "TXT") ∨
          (k = "ipv4Address" ∧ recordType = GoString.ofString "A"))) ∧
      body.get? "nodeName" = some (coerceUTF8 recordName) ∧
      body.get? "recordType" = some (coerceUTF8 recordType) ∧
      body.get? "group" = some "" ∧
      body.get? "state" = some "true" ∧
      (recordType = GoString.ofString "TXT" →
        body.get? "textData" = some (coerceUTF8 value)) ∧
      (recordType = GoString.ofString "A" →
        body.get? "ipv4Address" = some (coerceUTF8 value)) ∧
      (recordType ≠ GoString.ofString "TXT" → recordType ≠ GoString.ofString "A" →
        body.get? "textData" = none ∧ body.get? "ipv4Address" = none)) ∧
    (∀ s : String, coerceUTF8 (GoString.ofString s) = s) := by
  refine ⟨?_, coerceUTF8_ofString⟩
  have hAT : GoString.ofString "A" ≠ GoString.ofString "TXT" := by decide
  by_cases hT : recordType = GoString.ofString "TXT"
  · refine ⟨[("textData", coerceUTF8 value), ("nodeName", coerceUTF8 recordName),
        ("recordType", coerceUTF8 recordType),
        ("ttl", coerceUTF8 (GoString.ofString (durationString (reqTtl ttl)))),
        ("group", coerceUTF8 (GoString.ofString "")),
        ("state", coerceUTF8 (GoString.ofString "true"))], ?_, ?_⟩
    · simp [getRecordReqBody, jsonMarshal, GoMap.set, hT]
    · simp only [GoMap.get?, lookup_isSome_iff]
      simp [List.lookup, coerceUTF8_ofString, hT, hAT.symm]
      intro k
      tauto
  · by_cases hA : recordType = GoString.ofString "A"
    · refine ⟨[("ipv4Address", coerceUTF8 value), ("nodeName", coerceUTF8 recordName),
          ("recordType", coerceUTF8 recordType),
          ("ttl", coerceUTF8 (GoString.ofString (durationString (reqTtl ttl)))),
          ("group", coerceUTF8 (GoString.ofString "")),
          ("state", coerceUTF8 (GoString.ofString "true"))], ?_, ?_⟩
      · simp [getRecordReqBody, jsonMarshal, GoMap.set, hA, hAT]
      · simp only [GoMap.get?, lookup_isSome_iff]
        simp [List.lookup, coerceUTF8_ofString, hA, hAT]
        intro k
        tauto
    · refine ⟨[("nodeName", coerceUTF8 recordName), ("recordType", coerceUTF8 recordType),
          ("ttl", coerceUTF8 (GoString.ofString (durationString (reqTtl ttl)))),
          ("group", coerceUTF8 (GoString.ofString "")),
          ("state", coerceUTF8 (GoString.ofString "true"))], ?_, ?_⟩
      · simp [getRecordReqBody, jsonMarshal, hT, hA]
      · simp only [GoMap.get?, lookup_isSome_iff]
        simp [List.lookup, coerceUTF8_ofString, hT, hA]

/-- Witness of the amended C9 on a TXT, an A and a CNAME record with valid UTF-8 fields, and
on a TXT record whose value is not valid UTF-8. -/
theorem getRecordReqBody_fields_witness :
    (∃ body : GoMap String, getRecordReqBody "_acme" "TXT" "new" 300000000000 = .ok body ∧
      body.get? "textData" = some "new") ∧
    (∃ body : GoMap String, getRecordReqBody "www" "A" "192.0.2.1" 300000000000 = .ok body ∧
      body.get? "ipv4Address" = some "192.0.2.1") ∧
    (∃ body : GoMap String, getRecordReqBody "alias" "CNAME" "www" 300000000000 = .ok body ∧
      body.get? "textData" = none ∧ body.get? "ipv4Address" = none) ∧
    (∃ body : GoMap String,
      getRecordReqBody "note" "TXT" ⟨[99, 97, 102, 233]⟩ 300000000000 = .ok body ∧
      body.get? "textData" = some "caf�") := by
  refine ⟨?_, ?_, ?_, ?_⟩
  · obtain ⟨⟨body, h1, _, _, _, _, _, _, h8, _, _⟩, hv⟩ :=
      getRecordReqBody_fields (GoString.ofString "_acme") (GoString.ofString "TXT")
        (GoString.ofString "new") 300000000000
    exact ⟨body, h1, by rw [h8 rfl, hv]⟩
  · obtain ⟨⟨body, h1, _, _, _, _, _, _, _, h9, _⟩, hv⟩ :=
      getRecordReqBody_fields (GoString.ofString "www") (GoString.ofString "A")
        (GoString.ofString "192.0.2.1") 300000000000
    exact ⟨body, h1, by rw [h9 rfl, hv]⟩
  · obtain ⟨⟨body, h1, _, _, _, _, _, _, _, _, h10⟩, _⟩ :=
      getRecordReqBody_fields (GoString.ofString "alias") (GoString.ofString "CNAME")
        (GoString.ofString "www") 300000000000
    exact ⟨body, h1, h10 (by decide) (by decide)⟩
  · obtain ⟨⟨body, h1, _, _, _, _, _, _, h8, _, _⟩, _⟩ :=
      getRecordReqBody_fields (GoString.ofString "note") (GoString.ofString "TXT")
        ⟨[99, 97, 102, 233]⟩ 300000000000
    exact ⟨body, h1, by rw [h8 rfl]; decide⟩

/-- C8 (evaluation of the code at a record TTL of 300 seconds). The duration formatted into
the field `ttl` is 4852094820647174144 ns, not 300 s: the field reads
"1347804h7m0.647174144s" where the record TTL reads "5m0s". Already a TTL of 1 ns is sent as
1 s. -/
theorem getRecordReqBody_ttl_at_300s :
    reqTtl 1 = 1000000000 ∧
    reqTtl 300000000000 = 4852094820647174144 ∧
    reqTtl 300000000000 ≠ 300000000000 ∧
    (getRecordReqBody "_acme" "TXT" "new" 300000000000).toOption.bind
      (fun body => body.get? "ttl") = some "1347804h7m0.647174144s" ∧
    durationString 300000000000 = "5m0s" := by
  decide

/-! ## Listing -/

theorem wrapInt64_of_range (x : Int) (h1 : -9223372036854775808 ≤ x)
    (h2 : x < 9223372036854775808) : wrapInt64 x = x := by
  unfold wrapInt64
  rw [Int.emod_eq_of_lt (by omega) (by omega)]
  omega

theorem GetRecords_of_fetch (rm : Remote) (p : Provider) (tr : List Request) (zone : String)
    (resp : DnsRecordResponse) (domainId : String) (tr1 : List Request)
    (h : getRecordsForDomainByZone rm tr p.APIToken zone = ((resp, domainId, none), tr1)) :
    GetRecords rm p tr zone = (.ok (resp.DnsRecords.reverse.map toRecord), tr1) := by
  simp only [GetRecords, h]

/-- C6 (counterexample). On the fetched list `[recA, recTXT]` the first record `GetRecords`
returns is the translation of `recTXT`, not of the first native record `recA`. -/
theorem GetRecords_original_order_counterexample :
    ∃ out : List Record,
      (GetRecords (okRemote [recA, recTXT]) {} [] "example.com").1 = .ok out ∧
      out[0]? = some (toRecord recTXT) ∧
      out[0]? ≠ ([recA, recTXT][0]?).map toRecord :=
  ⟨[toRecord recTXT, toRecord recA], rfl, rfl, by decide⟩

/-- C6 (amended). For every successfully fetched list of `n` native records, `GetRecords`
returns `n` generic records in the reverse of the provider's order: for every position
`i < n`, the `i`-th returned record is the translation of the native record at position
`n - 1 - i`. -/
theorem GetRecords_reverse_order (rm : Remote) (p : Provider) (tr : List Request)
    (zone : String) (resp : DnsRecordResponse) (domainId : String) (tr1 : List Request)
    (h : getRecordsForDomainByZone rm tr p.APIToken zone = ((resp, domainId, none), tr1)) :
    ∃ out : List Record,
      (GetRecords rm p tr zone).1 = .ok out ∧
      out.length = resp.DnsRecords.length ∧
      ∀ i : Nat, i < resp.DnsRecords.length →
        out[i]? = (resp.DnsRecords[resp.DnsRecords.length - 1 - i]?).map toRecord := by
  refine ⟨resp.DnsRecords.reverse.map toRecord, ?_, by simp, ?_⟩
  · rw [GetRecords_of_fetch rm p tr zone resp domainId tr1 h]
  · intro i hi
    rw [List.getElem?_map, List.getElem?_reverse hi]

/-- Witness of the amended C6 on the fetched list `[recA, recTXT]`. -/
theorem GetRecords_reverse_order_witness :
    ∃ out : List Record,
      (GetRecords (okRemote [recA, recTXT]) {} [] "example.com").1 = .ok out ∧
      out.length = 2 ∧
      ∀ i : Nat, i < 2 → out[i]? = ([recA, recTXT][2 - 1 - i]?).map toRecord :=
  GetRecords_reverse_order (okRemote [recA, recTXT]) {} [] "example.com"
    { DnsRecords := [recA, recTXT] } "7"
    [⟨"https://api.dynu.com/v2/dns/getroot/example.com", "GET", none, ""⟩,
     ⟨"https://api.dynu.com/v2/dns/7/record", "GET", none, ""⟩] (by decide)

/-- C7 (counterexample). A native record with `Ttl = 9223372037` is listed with a TTL of
-9223372036709551616 ns, which is not 9223372037 seconds. -/
theorem GetRecords_ttl_counterexample :
    ∃ out : List Record,
      (GetRecords (okRemote [recHugeTtl]) {} [] "example.com").1 = .ok out ∧
      out.map (fun r => r.TTL) = [-9223372036709551616] ∧
      out.map (fun r => r.TTL) ≠ [recHugeTtl.Ttl * 1000000000] :=
  ⟨[toRecord recHugeTtl], rfl, by decide, by decide⟩

/-- C7 (amended). For every successfully fetched list of native records, `GetRecords` returns
one generic record per native record (same length, a permutation of the list of
translations), where the translation of `r` has Type `r.RecordType`, Name `r.NodeName`, Value
`r.TextData` for "TXT", `r.Ipv4Address` for "A" and "" for every other type, and TTL the
64-bit signed product of `r.Ttl` and 10^9 ns, which is `r.Ttl` seconds whenever
-9223372036 ≤ `r.Ttl` ≤ 9223372036. -/
theorem GetRecords_translation (rm : Remote) (p : Provider) (tr : List Request)
    (zone : String) (resp : DnsRecordResponse) (domainId : String) (tr1 : List Request)
    (h : getRecordsForDomainByZone rm tr p.APIToken zone = ((resp, domainId, none), tr1)) :
    (∃ out : List Record,
      (GetRecords rm p tr zone).1 = .ok out ∧
      out.length = resp.DnsRecords.length ∧
      out.Perm (resp.DnsRecords.map toRecord)) ∧
    ∀ r : DnsRecord,
      (toRecord r).Typ = r.RecordType ∧
      (toRecord r).Name = r.NodeName ∧
      (r.RecordType = "TXT" → (toRecord r).Value = r.TextData) ∧
      (r.RecordType = "A" → (toRecord r).Value = r.Ipv4Address) ∧
      (r.RecordType ≠ "TXT" → r.RecordType ≠ "A" → (toRecord r).Value = "") ∧
      (toRecord r).TTL = wrapInt64 (r.Ttl * 1000000000) ∧
      (-9223372036 ≤ r.Ttl → r.Ttl ≤ 9223372036 → (toRecord r).TTL = r.Ttl * 1000000000) := by
  refine ⟨⟨resp.DnsRecords.reverse.map toRecord, ?_, by simp, ?_⟩, ?_⟩
  · rw [GetRecords_of_fetch rm p tr zone resp domainId tr1 h]
  · exact (List.reverse_perm _).map toRecord
  · intro r
    refine ⟨rfl, rfl, ?_, ?_, ?_, rfl, ?_⟩
    · intro hT
      simp [toRecord, hT]
    · intro hA
      have hT : ¬ r.RecordType = "TXT" := by rw [hA]; decide
      simp [toRecord, hT, hA]
    · intro hT hA
      simp [toRecord, hT, hA]
    · intro h1 h2
      show wrapInt64 (r.Ttl * Second) = r.Ttl * 1000000000
      unfold Second
      exact wrapInt64_of_range _ (by omega) (by omega)

/-- Witness of the amended C7 on the fetched list `[recA, recTXT]`. -/
theorem GetRecords_translation_witness :
    (∃ out : List Record,
      (GetRecords (okRemote [recA, recTXT]) {} [] "example.com").1 = .ok out ∧
      out.length = 2 ∧ out.Perm ([recA, recTXT].map toRecord)) ∧
    (toRecord recA).Value = "192.0.2.1" ∧ (toRecord recA).TTL = 300 * 1000000000 :=
  have hfetch := GetRecords_translation (okRemote [recA, recTXT]) {} [] "example.com"
    { DnsRecords := [recA, recTXT] } "7"
    [⟨"https://api.dynu.com/v2/dns/getroot/example.com", "GET", none, ""⟩,
     ⟨"https://api.dynu.com/v2/dns/7/record", "GET", none, ""⟩] (by decide)
  ⟨hfetch.1, (hfetch.2 recA).2.2.2.1 (by decide),
    (hfetch.2 recA).2.2.2.2.2.2 (by decide) (by decide)⟩

/-! ## Writes -/

theorem addRecord_eq (rm : Remote) (tr : List Request) (apiKey domainId : String) (r : Record) :
    addRecord rm tr apiKey domainId r.Name r.Typ r.Value r.TTL =
      tr ++ [createCall apiKey domainId r] := rfl

theorem updteRecord_eq (rm : Remote) (tr : List Request) (apiKey domainId : String) (k : Int)
    (r : Record) :
    updteRecord rm tr apiKey domainId k r.Name r.Typ r.Value r.TTL =
      tr ++ [updateCall apiKey domainId k r] := rfl

theorem getRecodsMaps_of_fetch (rm : Remote) (tr : List Request) (apiKey zone : String)
    (resp : DnsRecordResponse) (domainId : String) (err : Option String) (tr1 : List Request)
    (h : getRecordsForDomainByZone rm tr apiKey zone = ((resp, domainId, err), tr1)) :
    getRecodsMaps rm tr apiKey zone = ((buildIndex resp.DnsRecords, domainId, err), tr1) := by
  simp only [getRecodsMaps, h]

theorem getDomainIdFromFQDN_trace (rm : Remote) (tr : List Request) (apiKey zone : String) :
    (getDomainIdFromFQDN rm tr apiKey zone).2 =
      tr ++ [⟨getrootUrl zone, "GET", none, apiKey⟩] := by
  unfold getDomainIdFromFQDN callDnsApi
  simp only []
  generalize rm.respond tr ⟨getrootUrl zone, "GET", none, apiKey⟩ = res
  cases res with
  | error e => rfl
  | ok response =>
    simp only []
    generalize rm.unmarshalDomain response = d
    cases d <;> rfl

theorem getRecordsForDomainByZone_only_gets (rm : Remote) (tr : List Request)
    (apiKey zone : String) :
    ∃ gets : List Request, (getRecordsForDomainByZone rm tr apiKey zone).2 = tr ++ gets ∧
      ∀ q ∈ gets, q.method = "GET" := by
  unfold getRecordsForDomainByZone
  have ht := getDomainIdFromFQDN_trace rm tr apiKey zone
  rcases hd : getDomainIdFromFQDN rm tr apiKey zone with ⟨⟨domainId, node, err⟩, t1⟩
  rw [hd] at ht
  simp only [] at ht
  subst ht
  cases err with
  | some e => exact ⟨[⟨getrootUrl zone, "GET", none, apiKey⟩], rfl, by simp⟩
  | none =>
    simp only [getRecordsForDomain, callDnsApi]
    generalize rm.respond _ _ = res
    cases res with
    | error e =>
      exact ⟨[⟨getrootUrl zone, "GET", none, apiKey⟩,
        ⟨apiUrl ++ "/dns/" ++ domainId ++ "/record", "GET", none, apiKey⟩], by simp, by simp⟩
    | ok body =>
      exact ⟨[⟨getrootUrl zone, "GET", none, apiKey⟩,
        ⟨apiUrl ++ "/dns/" ++ domainId ++ "/record", "GET", none, apiKey⟩], by simp, by simp⟩

theorem getRecodsMaps_only_gets (rm : Remote) (tr : List Request) (apiKey zone : String) :
    ∃ gets : List Request, (getRecodsMaps rm tr apiKey zone).2 = tr ++ gets ∧
      ∀ q ∈ gets, q.method = "GET" := by
  have h := getRecordsForDomainByZone_only_gets rm tr apiKey zone
  simpa only [getRecodsMaps] using h

theorem appendLoop_cons (rm : Remote) (apiKey : String) (idx : GoMap (GoMap Int))
    (domainId : String) (r : Record) (rest acc : List Record) (tr : List Request) :
    appendLoop rm apiKey idx domainId none (r :: rest) acc tr =
      appendLoop rm apiKey idx domainId none rest (acc ++ [r])
        (tr ++ [writeCall idx apiKey domainId r]) := by
  simp only [appendLoop, writeCall, lookupId, addRecord_eq, updteRecord_eq]
  cases h1 : GoMap.get? idx r.Typ with
  | none => simp
  | some inner =>
    cases h2 : GoMap.get? inner r.Name with
    | none => simp [h2]
    | some k =>
      by_cases hk : k = 0
      · simp [h2, hk]
      · simp [h2, hk]

theorem appendLoop_none (rm : Remote) (apiKey : String) (idx : GoMap (GoMap Int))
    (domainId : String) :
    ∀ (records acc : List Record) (tr : List Request),
      appendLoop rm apiKey idx domainId none records acc tr =
        (.ok (acc ++ records), tr ++ records.map (writeCall idx apiKey domainId))
  | [], acc, tr => by simp [appendLoop]
  | r :: rest, acc, tr => by
    rw [appendLoop_cons, appendLoop_none rm apiKey idx domainId rest]
    simp

theorem writeCall_nil (apiKey domainId : String) (r : Record) :
    writeCall (buildIndex []) apiKey domainId r = createCall apiKey domainId r := rfl

theorem updateCall_ne_createCall (apiKey domainId : String) (k : Int) (r : Record) :
    updateCall apiKey domainId k r ≠ createCall apiKey domainId r := by
  intro h
  have hu := congrArg (fun q : Request => q.url.data.length) h
  simp [updateCall, createCall, String.data_append] at hu

theorem AppendRecords_run (rm : Remote) (p : Provider) (tr : List Request)
    (zone : String) (records : List Record) (resp : DnsRecordResponse) (domainId : String)
    (tr1 : List Request)
    (h : getRecordsForDomainByZone rm tr p.APIToken zone = ((resp, domainId, none), tr1)) :
    AppendRecords rm p tr zone records =
      (.ok records,
        tr1 ++ records.map (writeCall (buildIndex resp.DnsRecords) p.APIToken domainId)) := by
  simp only [AppendRecords, getRecodsMaps_of_fetch rm tr p.APIToken zone resp domainId none tr1 h,
    appendLoop_none, List.nil_append]

/-- C1. Once the existing native records are fetched, `AppendRecords` issues exactly one write
call per input record, in input order, each decided against the index built from that fetch:
an update addressed to `k` when the index holds a non-zero `k` for the record's (Type, Name),
a create otherwise. When the fetched list is empty every call is a create. -/
theorem AppendRecords_one_write_per_record (rm : Remote) (p : Provider) (tr : List Request)
    (zone : String) (records : List Record) (resp : DnsRecordResponse) (domainId : String)
    (tr1 : List Request)
    (h : getRecordsForDomainByZone rm tr p.APIToken zone = ((resp, domainId, none), tr1)) :
    (AppendRecords rm p tr zone records).2 =
      tr1 ++ records.map (writeCall (buildIndex resp.DnsRecords) p.APIToken domainId) ∧
    (resp.DnsRecords = [] →
      (AppendRecords rm p tr zone records).2 =
        tr1 ++ records.map (createCall p.APIToken domainId)) := by
  have hrun := AppendRecords_run rm p tr zone records resp domainId tr1 h
  refine ⟨by rw [hrun], ?_⟩
  intro hnil
  rw [hrun, hnil]
  exact congrArg (fun l => tr1 ++ l)
    (List.map_congr_left (fun r _ => writeCall_nil p.APIToken domainId r))

/-- Witness of C1: against the existing records `[recTXT]` the input `[inTXT, inOther]` yields
an update of record 5 followed by a create; against no existing record it yields two
creates. -/
theorem AppendRecords_one_write_per_record_witness :
    (AppendRecords (okRemote [recTXT]) {} [] "example.com" [inTXT, inOther]).2 =
      [⟨"https://api.dynu.com/v2/dns/getroot/example.com", "GET", none, ""⟩,
       ⟨"https://api.dynu.com/v2/dns/7/record", "GET", none, ""⟩,
       updateCall "" "7" 5 inTXT, createCall "" "7" inOther] ∧
    (AppendRecords (okRemote []) {} [] "example.com" [inTXT, inOther]).2 =
      [⟨"https://api.dynu.com/v2/dns/getroot/example.com", "GET", none, ""⟩,
       ⟨"https://api.dynu.com/v2/dns/7/record", "GET", none, ""⟩,
       createCall "" "7" inTXT, createCall "" "7" inOther] :=
  ⟨(AppendRecords_one_write_per_record (okRemote [recTXT]) {} [] "example.com" [inTXT, inOther]
      { DnsRecords := [recTXT] } "7"
      [⟨"https://api.dynu.com/v2/dns/getroot/example.com", "GET", none, ""⟩,
       ⟨"https://api.dynu.com/v2/dns/7/record", "GET", none, ""⟩] (by decide)).1,
   (AppendRecords_one_write_per_record (okRemote []) {} [] "example.com" [inTXT, inOther]
      { DnsRecords := [] } "7"
      [⟨"https://api.dynu.com/v2/dns/getroot/example.com", "GET", none, ""⟩,
       ⟨"https://api.dynu.com/v2/dns/7/record", "GET", none, ""⟩] (by decide)).2 rfl⟩

/-- C2 (counterexample). The existing record `recNoId` has the (Type, Name) of the input
`inA` and the index holds identifier 0 for that pair; `AppendRecords` issues a create for
`inA` and no update. -/
theorem AppendRecords_update_on_match_counterexample :
    (∃ e ∈ [recNoId], e.RecordType = inA.Typ ∧ e.NodeName = inA.Name) ∧
    lookupId (buildIndex [recNoId]) inA.Typ inA.Name = some 0 ∧
    (AppendRecords (okRemote [recNoId]) {} [] "example.com" [inA]).2 =
      [⟨"https://api.dynu.com/v2/dns/getroot/example.com", "GET", none, ""⟩,
       ⟨"https://api.dynu.com/v2/dns/7/record", "GET", none, ""⟩,
       createCall "" "7" inA] ∧
    updateCall "" "7" 0 inA ∉
      (AppendRecords (okRemote [recNoId]) {} [] "example.com" [inA]).2 :=
  ⟨⟨recNoId, List.mem_singleton.mpr rfl, rfl, rfl⟩, by decide, by decide, by decide⟩

/-- C2 (amended). For every fetched list of existing native records and every input record
(at position `i`) whose (Type, Name) is the (RecordType, NodeName) of at least one existing
record, the index holds an identifier `k` for that pair, and the write `AppendRecords` issues
for the record (the `i`-th call after the fetch) is an update addressed to `k`, not a create,
when `k` is non-zero, and a create when `k` is zero. -/
theorem AppendRecords_update_on_nonzero_match (rm : Remote) (p : Provider)
    (tr : List Request) (zone : String) (records : List Record) (resp : DnsRecordResponse)
    (domainId : String) (tr1 : List Request)
    (h : getRecordsForDomainByZone rm tr p.APIToken zone = ((resp, domainId, none), tr1))
    (i : Nat) (r : Record) (hr : records[i]? = some r)
    (hex : ∃ e ∈ resp.DnsRecords, e.RecordType = r.Typ ∧ e.NodeName = r.Name) :
    ∃ k : Int, lookupId (buildIndex resp.DnsRecords) r.Typ r.Name = some k ∧
      (k ≠ 0 →
        (AppendRecords rm p tr zone records).2[tr1.length + i]? =
          some (updateCall p.APIToken domainId k r) ∧
        updateCall p.APIToken domainId k r ≠ createCall p.APIToken domainId r) ∧
      (k = 0 →
        (AppendRecords rm p tr zone records).2[tr1.length + i]? =
          some (createCall p.APIToken domainId r)) := by
  have hsome : ∃ k : Int, lookupId (buildIndex resp.DnsRecords) r.Typ r.Name = some k := by
    rw [lookupId_buildIndex]
    obtain ⟨e, he, h1, h2⟩ := hex
    cases hf : resp.DnsRecords.find?
        (fun x => decide (x.RecordType = r.Typ ∧ x.NodeName = r.Name)) with
    | none =>
      rw [List.find?_eq_none] at hf
      have := hf e he
      simp [h1, h2] at this
    | some x => exact ⟨x.Id, rfl⟩
  obtain ⟨k, hk⟩ := hsome
  have hcall : (AppendRecords rm p tr zone records).2[tr1.length + i]? =
      some (writeCall (buildIndex resp.DnsRecords) p.APIToken domainId r) := by
    rw [AppendRecords_run rm p tr zone records resp domainId tr1 h]
    simp only []
    rw [List.getElem?_append_right (Nat.le_add_right _ _), Nat.add_sub_cancel_left,
      List.getElem?_map, hr]
    rfl
  refine ⟨k, hk, ?_, ?_⟩
  · intro hk0
    refine ⟨?_, updateCall_ne_createCall _ _ _ _⟩
    rw [hcall]
    simp [writeCall, hk, hk0]
  · intro hk0
    rw [hcall]
    simp [writeCall, hk, hk0]

/-- Witness of the amended C2: against `[recTXT]` the write for `inTXT` is an update addressed
to 5. -/
theorem AppendRecords_update_on_nonzero_match_witness :
    ∃ k : Int, lookupId (buildIndex [recTXT]) inTXT.Typ inTXT.Name = some k ∧
      (k ≠ 0 →
        (AppendRecords (okRemote [recTXT]) {} [] "example.com" [inOther, inTXT]).2[2 + 1]? =
          some (updateCall "" "7" k inTXT) ∧
        updateCall "" "7" k inTXT ≠ createCall "" "7" inTXT) ∧
      (k = 0 →
        (AppendRecords (okRemote [recTXT]) {} [] "example.com" [inOther, inTXT]).2[2 + 1]? =
          some (createCall "" "7" inTXT)) :=
  AppendRecords_update_on_nonzero_match (okRemote [recTXT]) {} [] "example.com"
    [inOther, inTXT] { DnsRecords := [recTXT] } "7"
    [⟨"https://api.dynu.com/v2/dns/getroot/example.com", "GET", none, ""⟩,
     ⟨"https://api.dynu.com/v2/dns/7/record", "GET", none, ""⟩] (by decide)
    1 inTXT rfl ⟨recTXT, List.mem_singleton.mpr rfl, rfl, rfl⟩

/-- C4. `AppendRecords` returns an error if and only if the initial index build fails, and then
issues no call beyond the GET requests of the index build (no create, no update); whenever
the index build succeeds it returns, without error, exactly the input records in input order,
whatever the remote answers to each create or update. -/
theorem AppendRecords_error_iff_index_build_fails (rm : Remote) (p : Provider)
    (tr : List Request) (zone : String) (records : List Record) :
    ((getRecodsMaps rm tr p.APIToken zone).1.2.2 = none →
      (AppendRecords rm p tr zone records).1 = .ok records) ∧
    (∀ e : String, (getRecodsMaps rm tr p.APIToken zone).1.2.2 = some e →
      (AppendRecords rm p tr zone records).1 = .error ("unable to get DNS records " ++ e) ∧
      (AppendRecords rm p tr zone records).2 = (getRecodsMaps rm tr p.APIToken zone).2 ∧
      ∃ gets : List Request, (AppendRecords rm p tr zone records).2 = tr ++ gets ∧
        ∀ q ∈ gets, q.method = "GET") ∧
    ((∃ e : String, (AppendRecords rm p tr zone records).1 = .error e) ↔
      (getRecodsMaps rm tr p.APIToken zone).1.2.2 ≠ none) := by
  have hgets := getRecodsMaps_only_gets rm tr p.APIToken zone
  unfold AppendRecords
  rcases hg : getRecodsMaps rm tr p.APIToken zone with ⟨⟨idx, domainId, err⟩, t1⟩
  rw [hg] at hgets
  cases err with
  | none =>
    simp only [appendLoop_none, List.nil_append]
    refine ⟨fun _ => trivial, ?_, ?_⟩
    · intro e he
      simp at he
    · simp
  | some e0 =>
    refine ⟨?_, ?_, ?_⟩
    · intro he
      simp at he
    · intro e he
      simp only [Option.some.injEq] at he
      subst he
      exact ⟨rfl, rfl, hgets⟩
    · simp

/-- Witness of C4: with a remote whose lookup fails the result is an error and only the lookup
GET was issued; with a remote that answers, the input records come back. -/
theorem AppendRecords_error_iff_index_build_fails_witness :
    (AppendRecords downRemote {} [] "example.com" [inTXT]).1 =
      .error ("unable to get DNS records " ++ "Error calling API") ∧
    (AppendRecords (okRemote [recTXT]) {} [] "example.com" [inTXT, inOther]).1 =
      .ok [inTXT, inOther] :=
  ⟨((AppendRecords_error_iff_index_build_fails downRemote {} [] "example.com" [inTXT]).2.1
      "Error calling API" (by decide)).1,
   (AppendRecords_error_iff_index_build_fails (okRemote [recTXT]) {} [] "example.com"
      [inTXT, inOther]).1 (by decide)⟩

/-! ## Deletion -/

theorem deleteLoop_cons_present (rm : Remote) (apiKey : String) (idx : GoMap (GoMap Int))
    (domainId : String) (r : Record) (rest acc : List Record) (tr : List Request) (k : Int)
    (hl : lookupId idx r.Typ r.Name = some k) :
    deleteLoop rm apiKey idx domainId (r :: rest) acc tr =
      match rm.respond tr (deleteCall apiKey domainId k) with
      | .error err => (.error err, tr ++ [deleteCall apiKey domainId k])
      | .ok _ =>
        deleteLoop rm apiKey idx domainId rest (acc ++ [r])
          (tr ++ [deleteCall apiKey domainId k]) := by
  unfold lookupId at hl
  cases h1 : GoMap.get? idx r.Typ with
  | none => simp [h1] at hl
  | some inner =>
    simp only [h1] at hl
    rw [deleteLoop]
    simp only [h1, hl, deleteRecord, callDnsApi, deleteCall]
    generalize rm.respond tr ⟨apiUrl ++ "/dns/" ++ domainId ++ "/record/" ++ toString k,
      "DELETE", none, apiKey⟩ = res
    cases res <;> rfl

theorem deleteLoop_cons_absent (rm : Remote) (apiKey : String) (idx : GoMap (GoMap Int))
    (domainId : String) (r : Record) (rest acc : List Record) (tr : List Request)
    (hl : lookupId idx r.Typ r.Name = none) :
    deleteLoop rm apiKey idx domainId (r :: rest) acc tr =
      (.error "unable to get DNS records <nil>", tr) := by
  unfold lookupId at hl
  rw [deleteLoop]
  cases h1 : GoMap.get? idx r.Typ with
  | none => rfl
  | some inner =>
    simp only [h1] at hl
    simp only [hl]

theorem deleteLoop_run (rm : Remote) (apiKey : String) (idx : GoMap (GoMap Int))
    (domainId : String) :
    ∀ (records acc : List Record) (tr : List Request),
      (∀ (pre : List Request) (q : Request) (post : List Request),
        (deleteLoop rm apiKey idx domainId records acc tr).2 = tr ++ pre ++ q :: post →
        q.method = "DELETE" → ∃ b : String, rm.respond (tr ++ pre) q = .ok b) →
      deleteLoop rm apiKey idx domainId records acc tr =
        (if (records.takeWhile (present idx)).length = records.length then .ok (acc ++ records)
          else .error "unable to get DNS records <nil>",
         tr ++ (records.takeWhile (present idx)).map
          (fun r => deleteCall apiKey domainId ((lookupId idx r.Typ r.Name).getD 0)))
  | [], acc, tr, _ => by simp [deleteLoop]
  | r :: rest, acc, tr, hdel => by
    cases hl : lookupId idx r.Typ r.Name with
    | none =>
      have hp : present idx r = false := by simp [present, hl]
      rw [deleteLoop_cons_absent rm apiKey idx domainId r rest acc tr hl]
      simp [List.takeWhile, hp]
    | some k =>
      have hp : present idx r = true := by simp [present, hl]
      have hstep := deleteLoop_cons_present rm apiKey idx domainId r rest acc tr k hl
      cases hres : rm.respond tr (deleteCall apiKey domainId k) with
      | error err =>
        rw [hres] at hstep
        have htr : (deleteLoop rm apiKey idx domainId (r :: rest) acc tr).2 =
            tr ++ [] ++ deleteCall apiKey domainId k :: [] := by
          rw [hstep]
          simp
        obtain ⟨b, hb⟩ := hdel [] (deleteCall apiKey domainId k) [] htr rfl
        rw [List.append_nil, hres] at hb
        cases hb
      | ok body =>
        rw [hres] at hstep
        simp only [] at hstep
        have hrest := deleteLoop_run rm apiKey idx domainId rest (acc ++ [r])
          (tr ++ [deleteCall apiKey domainId k]) (by
            intro pre q post htr hq
            have h1 := hdel (deleteCall apiKey domainId k :: pre) q post (by
              rw [hstep, htr]
              simp) hq
            simpa using h1)
        rw [hstep, hrest]
        simp [List.takeWhile, hp, hl]

/-- C5. Assume the index build succeeds and each DELETE call that `DeleteRecords` issues
succeeds, and let the leading records be the longest initial run of the input whose
(Type, Name) is present in the index, `k` its length. `DeleteRecords` issues exactly `k` DELETE
calls, one per leading record in input order, each addressed to the identifier the index
holds for that record; if `k` is less than the input length it returns an error and no
records, with no DELETE for the first missing record or any later one and the `k` earlier
deletions left in place; if `k` is the input length it returns the input records unchanged,
without error. -/
theorem DeleteRecords_stops_at_first_missing (rm : Remote) (p : Provider)
    (tr : List Request) (zone : String) (records : List Record) (resp : DnsRecordResponse)
    (domainId : String) (tr1 : List Request)
    (h : getRecordsForDomainByZone rm tr p.APIToken zone = ((resp, domainId, none), tr1))
    (hdel : ∀ (pre : List Request) (q : Request) (post : List Request),
      (DeleteRecords rm p tr zone records).2 = tr1 ++ pre ++ q :: post →
      q.method = "DELETE" → ∃ b : String, rm.respond (tr1 ++ pre) q = .ok b) :
    (∀ r ∈ records.takeWhile (present (buildIndex resp.DnsRecords)),
      ∃ k : Int, lookupId (buildIndex resp.DnsRecords) r.Typ r.Name = some k) ∧
    (DeleteRecords rm p tr zone records).2 =
      tr1 ++ (records.takeWhile (present (buildIndex resp.DnsRecords))).map
        (fun r => deleteCall p.APIToken domainId
          ((lookupId (buildIndex resp.DnsRecords) r.Typ r.Name).getD 0)) ∧
    ((records.takeWhile (present (buildIndex resp.DnsRecords))).length < records.length →
      ∃ e : String, (DeleteRecords rm p tr zone records).1 = .error e) ∧
    ((records.takeWhile (present (buildIndex resp.DnsRecords))).length = records.length →
      (DeleteRecords rm p tr zone records).1 = .ok records) := by
  have hrun : DeleteRecords rm p tr zone records =
      deleteLoop rm p.APIToken (buildIndex resp.DnsRecords) domainId records [] tr1 := by
    simp only [DeleteRecords,
      getRecodsMaps_of_fetch rm tr p.APIToken zone resp domainId none tr1 h]
  rw [hrun] at hdel
  rw [hrun, deleteLoop_run rm p.APIToken (buildIndex resp.DnsRecords) domainId records [] tr1
    hdel]
  refine ⟨?_, rfl, ?_, ?_⟩
  · intro r hr
    have hp := List.mem_takeWhile_imp hr
    simp only [present] at hp
    exact Option.isSome_iff_exists.mp hp
  · intro hlt
    exact ⟨"unable to get DNS records <nil>", by simp [Nat.ne_of_lt hlt]⟩
  · intro heq
    simp [heq]

/-- Witness of C5 against the existing records `[recTXT]`, on a remote that answers 404 to
every DELETE but that of record 5: for the input `[inTXT, inOther, inTXT]` the one DELETE
issued (of record 5) succeeds, and the result is an error. -/
theorem DeleteRecords_stops_at_first_missing_witness :
    (DeleteRecords (pickyRemote [recTXT]) {} [] "example.com" [inTXT, inOther, inTXT]).2 =
      [⟨"https://api.dynu.com/v2/dns/getroot/example.com", "GET", none, ""⟩,
       ⟨"https://api.dynu.com/v2/dns/7/record", "GET", none, ""⟩,
       deleteCall "" "7" 5] ∧
    (∃ e : String,
      (DeleteRecords (pickyRemote [recTXT]) {} [] "example.com" [inTXT, inOther, inTXT]).1 =
        .error e) ∧
    (∃ e : String, (pickyRemote [recTXT]).respond [] (deleteCall "" "7" 6) = .error e) :=
  have h3 := DeleteRecords_stops_at_first_missing (pickyRemote [recTXT]) {} [] "example.com"
    [inTXT, inOther, inTXT] { DnsRecords := [recTXT] } "7"
    [⟨"https://api.dynu.com/v2/dns/getroot/example.com", "GET", none, ""⟩,
     ⟨"https://api.dynu.com/v2/dns/7/record", "GET", none, ""⟩] (by decide)
    (by
      intro pre q post htr hq
      have hconc :
          (DeleteRecords (pickyRemote [recTXT]) {} [] "example.com"
            [inTXT, inOther, inTXT]).2 =
          [⟨"https://api.dynu.com/v2/dns/getroot/example.com", "GET", none, ""⟩,
           ⟨"https://api.dynu.com/v2/dns/7/record", "GET", none, ""⟩,
           deleteCall "" "7" 5] := by decide
      rw [hconc] at htr
      cases pre with
      | nil =>
        simp only [List.append_nil, List.cons_append, List.nil_append, List.cons.injEq,
          true_and] at htr
        obtain ⟨hq5, _⟩ := htr
        subst hq5
        exact ⟨"", rfl⟩
      | cons a pre1 =>
        simp at htr)
  ⟨h3.2.1, h3.2.2.1 (by decide), ⟨_, rfl⟩⟩

end Dynudns
